import Mathlib

/-!
Verification of a Go source-convention linter.

The development shallowly embeds the linter's two source files
(`helpers.go` and the `main.go` driver).  Pure string manipulation from
Go's `strings` package is modelled on `String.data` (lists of
characters); the fragment of Go's `go/ast` syntax-tree types that the
checks pattern-match on is modelled by mutual inductives; the
`token.FileSet` position table is modelled as a function from positions
to line numbers.  Character-level operations (`ToUpper`, character
classes of the regular expressions) are modelled at ASCII level, which
is the range the linter's regular expressions (`[A-Z]`, `[A-Za-z0-9]`,
literal substrings) themselves use.
-/

namespace FPValidator

/-! ## String helpers (models of Go `strings` functions) -/

/-- Models `strings.HasPrefix s pre`. -/
def goStartsWith (s pre : String) : Bool := pre.data.isPrefixOf s.data

/-- Models `strings.HasSuffix s suf`. -/
def goEndsWith (s suf : String) : Bool := suf.data.isSuffixOf s.data

/-- Boolean test that `sub` occurs as a contiguous run inside `l`. -/
def listIsInfixOf (sub : List Char) : List Char → Bool
  | [] => sub.isEmpty
  | c :: rest => sub.isPrefixOf (c :: rest) || listIsInfixOf sub rest

/-- Models `strings.Contains s sub`. -/
def containsSubstr (s sub : String) : Bool := listIsInfixOf sub.data s.data

/-- ASCII uppercase letter test, the range of the regexp class `[A-Z]`. -/
def isAsciiUpper (c : Char) : Bool := 65 ≤ c.toNat && c.toNat ≤ 90

/-- ASCII lowercase letter test, the range of the regexp class `[a-z]`. -/
def isAsciiLower (c : Char) : Bool := 97 ≤ c.toNat && c.toNat ≤ 122

/-- ASCII digit test, the range of the regexp class `[0-9]`. -/
def isAsciiDigit (c : Char) : Bool := 48 ≤ c.toNat && c.toNat ≤ 57

/-- ASCII letter test (the union of `[A-Z]` and `[a-z]`). -/
def isAsciiLetter (c : Char) : Bool := isAsciiUpper c || isAsciiLower c

/-- Models `strings.ToUpper` at ASCII level (character-wise upper-casing). -/
def goToUpper (s : String) : String := ⟨s.data.map Char.toUpper⟩

/-- Models `strings.ToLower` at ASCII level (character-wise lower-casing). -/
def goToLower (s : String) : String := ⟨s.data.map Char.toLower⟩

/-- Go whitespace characters trimmed by `strings.TrimSpace` (ASCII part). -/
def goIsSpace (c : Char) : Bool := c = ' ' || c = '\t' || c = '\r' || c = '\n'

/-- Models `strings.TrimSpace` (ASCII whitespace). -/
def goTrimSpace (s : String) : String :=
  ⟨((s.data.dropWhile goIsSpace).reverse.dropWhile goIsSpace).reverse⟩

/-- Models the Go byte-slice `s[0:1]` of a string whose first character is a
single-byte (ASCII) rune: the one-character prefix. -/
def goFirst1 (s : String) : String := ⟨s.data.take 1⟩

/-- Models `ast.IsExported` / `Ident.IsExported`: the first character is an
upper-case letter (Go uses `unicode.IsUpper` of the first rune; ASCII model). -/
def goIsExported (s : String) : Bool :=
  match s.data with
  | [] => false
  | c :: _ => isAsciiUpper c

/-- Models the `%q` rendering of an identifier by `fmt.Sprintf`: the name
between double quotes (identifiers contain no characters needing escapes). -/
def goQuote (s : String) : String := "\"" ++ s ++ "\""

/-- A diagnostic produced by `fmt.Sprintf` with layout `%s:%d: <rest>`. -/
def diagMsg (path : String) (line : Nat) (rest : String) : String :=
  path ++ ":" ++ toString line ++ ": " ++ rest

/-- A file-level diagnostic produced by `fmt.Sprintf` with layout `%s: <rest>`. -/
def fileDiagMsg (path rest : String) : String := path ++ ": " ++ rest

/-- Models `token.NewFileSet()` followed by `fset.Position(pos).Line`: a fresh
file set contains no files, so `Position` returns the zero `token.Position`
for every `Pos`, whose `Line` field is `0`. -/
def NewFileSetLine : Nat → Nat := fun _ => 0

/-! ## The fragment of `go/ast` the linter inspects -/

/-- An identifier occurrence together with its `token.Pos`. -/
structure GoIdent where
  name : String
  pos : Nat

mutual

/-- Expressions (`ast.Expr`), restricted to the node shapes the linter
pattern-matches on, plus generic containers so that arbitrary nesting
remains representable for `ast.Inspect` traversals. -/
inductive GoExpr where
  | ident (name : String)
  | sel (x : GoExpr) (name : String)
  | star (x : GoExpr)
  | structTy
  | arrayTy (elt : GoExpr)
  | compositeLit (ty : Option GoExpr) (elts : List GoExpr)
  | call (fn : GoExpr) (args : List GoExpr)
  | funcLit (body : List GoStmt)
  | basicLit (value : String)
  | otherExpr

/-- Statements (`ast.Stmt`), restricted to the node shapes the linter's
`ast.Inspect` callbacks match on (`DeclStmt`, `AssignStmt`, `RangeStmt`,
call expressions), plus generic containers for nesting. -/
inductive GoStmt where
  | declStmt (specs : List GoSpec)
  | assignStmt (lhs : List GoExpr) (rhs : List GoExpr)
  | rangeStmt (x : GoExpr) (body : List GoStmt)
  | exprStmt (e : GoExpr)
  | block (stmts : List GoStmt)
  | otherStmt (children : List GoStmt)

/-- Specs of a `GenDecl` (`ast.Spec`). -/
inductive GoSpec where
  | importSpec
  | valueSpec (names : List GoIdent) (ty : Option GoExpr) (values : List GoExpr)
  | typeSpec (name : String) (pos : Nat)

end

/-- The `token.Token` of a `GenDecl`. -/
inductive GoTok where
  | varTok
  | constTok
  | typeTok
  | importTok

/-- One field of a parameter list (`ast.Field`): possibly several names
sharing one type. -/
structure GoField where
  names : List String
  type : GoExpr

/-- A function declaration (`ast.FuncDecl`): name, position, receiver
presence, parameter fields, doc-comment text (`fn.Doc`, with `none`
modelling a nil doc and `some t` a present doc whose `Text()` is `t`),
and body (`none` models a nil body). -/
structure FuncDecl where
  name : String
  pos : Nat
  recv : Bool
  params : List GoField
  doc : Option String
  body : Option (List GoStmt)

/-- A top-level declaration (`ast.Decl`). -/
inductive GoDecl where
  | funcDecl (fd : FuncDecl)
  | genDecl (tok : GoTok) (specs : List GoSpec)
  | badDecl

/-- A parsed file (`ast.File`): its top-level declarations plus the
file-scope object map `f.Scope.Objects`, given as a list in whatever
iteration order the Go map produces. -/
structure AstFile where
  decls : List GoDecl
  scopeObjects : List GoIdent

/-! ## `ast.Inspect` traversals

`ast.Inspect` visits every node of a function body.  Each of the three
inspections the linter performs is modelled as a family of mutually
recursive functions over statements, expressions and specs. -/

mutual

/-- Does a statement tree contain a `RangeStmt` node anywhere? -/
def stmtHasRange : GoStmt → Bool
  | .declStmt specs => specListHasRange specs
  | .assignStmt lhs rhs => exprListHasRange lhs || exprListHasRange rhs
  | .rangeStmt _ _ => true
  | .exprStmt e => exprHasRange e
  | .block ss => stmtListHasRange ss
  | .otherStmt cs => stmtListHasRange cs

def stmtListHasRange : List GoStmt → Bool
  | [] => false
  | s :: ss => stmtHasRange s || stmtListHasRange ss

def exprHasRange : GoExpr → Bool
  | .ident _ => false
  | .sel x _ => exprHasRange x
  | .star x => exprHasRange x
  | .structTy => false
  | .arrayTy e => exprHasRange e
  | .compositeLit ty elts => optExprHasRange ty || exprListHasRange elts
  | .call f args => exprHasRange f || exprListHasRange args
  | .funcLit body => stmtListHasRange body
  | .basicLit _ => false
  | .otherExpr => false

def exprListHasRange : List GoExpr → Bool
  | [] => false
  | e :: es => exprHasRange e || exprListHasRange es

def optExprHasRange : Option GoExpr → Bool
  | none => false
  | some e => exprHasRange e

def specHasRange : GoSpec → Bool
  | .importSpec => false
  | .typeSpec _ _ => false
  | .valueSpec _ ty vals => optExprHasRange ty || exprListHasRange vals

def specListHasRange : List GoSpec → Bool
  | [] => false
  | s :: ss => specHasRange s || specListHasRange ss

end

/-- The composite-literal types accepted by the table-driven check:
`*ast.ArrayType`, `*ast.Ident` or `*ast.SelectorExpr`. -/
def isTableLitType : GoExpr → Bool
  | .arrayTy _ => true
  | .ident _ => true
  | .sel _ _ => true
  | _ => false

/-- A value that is a composite literal whose written type is accepted by the
table-driven check. -/
def isTableCompositeLit : GoExpr → Bool
  | .compositeLit (some t) _ => isTableLitType t
  | _ => false

/-- The examination the table-driven check performs on one `ValueSpec` of a
`DeclStmt`: an explicit array type, or an inferred type whose values include
an accepted composite literal. -/
def valueSpecSliceFlag (ty : Option GoExpr) (vals : List GoExpr) : Bool :=
  match ty with
  | some (.arrayTy _) => true
  | some _ => false
  | none => vals.any isTableCompositeLit

/-- The trigger of the table-driven check at a single spec. -/
def specSliceTrigger : GoSpec → Bool
  | .valueSpec _ ty vals => valueSpecSliceFlag ty vals
  | _ => false

mutual

/-- Does the `hasSliceDecl` flag of the table-driven inspection become true
anywhere in a statement tree? -/
def stmtHasSliceDecl : GoStmt → Bool
  | .declStmt specs => specs.any specSliceTrigger || specListHasSliceDecl specs
  | .assignStmt lhs rhs =>
      rhs.any isTableCompositeLit || exprListHasSliceDecl lhs || exprListHasSliceDecl rhs
  | .rangeStmt x body => exprHasSliceDecl x || stmtListHasSliceDecl body
  | .exprStmt e => exprHasSliceDecl e
  | .block ss => stmtListHasSliceDecl ss
  | .otherStmt cs => stmtListHasSliceDecl cs

def stmtListHasSliceDecl : List GoStmt → Bool
  | [] => false
  | s :: ss => stmtHasSliceDecl s || stmtListHasSliceDecl ss

def exprHasSliceDecl : GoExpr → Bool
  | .ident _ => false
  | .sel x _ => exprHasSliceDecl x
  | .star x => exprHasSliceDecl x
  | .structTy => false
  | .arrayTy e => exprHasSliceDecl e
  | .compositeLit ty elts => optExprHasSliceDecl ty || exprListHasSliceDecl elts
  | .call f args => exprHasSliceDecl f || exprListHasSliceDecl args
  | .funcLit body => stmtListHasSliceDecl body
  | .basicLit _ => false
  | .otherExpr => false

def exprListHasSliceDecl : List GoExpr → Bool
  | [] => false
  | e :: es => exprHasSliceDecl e || exprListHasSliceDecl es

def optExprHasSliceDecl : Option GoExpr → Bool
  | none => false
  | some e => exprHasSliceDecl e

def specHasSliceDecl : GoSpec → Bool
  | .importSpec => false
  | .typeSpec _ _ => false
  | .valueSpec _ ty vals => optExprHasSliceDecl ty || exprListHasSliceDecl vals

def specListHasSliceDecl : List GoSpec → Bool
  | [] => false
  | s :: ss => specHasSliceDecl s || specListHasSliceDecl ss

end

/-- The pattern the test-helper inspection looks for in a `CallExpr`: the
called expression is `tName.Helper` for the given receiver name. -/
def isHelperCallee (tName : String) : GoExpr → Bool
  | .sel (.ident x) m => x == tName && m == "Helper"
  | _ => false

mutual

/-- Does a statement tree contain a call expression `tName.Helper(...)`? -/
def stmtHasHelperCall (tName : String) : GoStmt → Bool
  | .declStmt specs => specListHasHelperCall tName specs
  | .assignStmt lhs rhs => exprListHasHelperCall tName lhs || exprListHasHelperCall tName rhs
  | .rangeStmt x body => exprHasHelperCall tName x || stmtListHasHelperCall tName body
  | .exprStmt e => exprHasHelperCall tName e
  | .block ss => stmtListHasHelperCall tName ss
  | .otherStmt cs => stmtListHasHelperCall tName cs

def stmtListHasHelperCall (tName : String) : List GoStmt → Bool
  | [] => false
  | s :: ss => stmtHasHelperCall tName s || stmtListHasHelperCall tName ss

def exprHasHelperCall (tName : String) : GoExpr → Bool
  | .ident _ => false
  | .sel x _ => exprHasHelperCall tName x
  | .star x => exprHasHelperCall tName x
  | .structTy => false
  | .arrayTy e => exprHasHelperCall tName e
  | .compositeLit ty elts => optExprHasHelperCall tName ty || exprListHasHelperCall tName elts
  | .call f args =>
      isHelperCallee tName f || exprHasHelperCall tName f || exprListHasHelperCall tName args
  | .funcLit body => stmtListHasHelperCall tName body
  | .basicLit _ => false
  | .otherExpr => false

def exprListHasHelperCall (tName : String) : List GoExpr → Bool
  | [] => false
  | e :: es => exprHasHelperCall tName e || exprListHasHelperCall tName es

def optExprHasHelperCall (tName : String) : Option GoExpr → Bool
  | none => false
  | some e => exprHasHelperCall tName e

def specHasHelperCall (tName : String) : GoSpec → Bool
  | .importSpec => false
  | .typeSpec _ _ => false
  | .valueSpec _ ty vals => optExprHasHelperCall tName ty || exprListHasHelperCall tName vals

def specListHasHelperCall (tName : String) : List GoSpec → Bool
  | [] => false
  | s :: ss => specHasHelperCall tName s || specListHasHelperCall tName ss

end

/-! ## Line-oriented scans (`scanFileForPatterns`) -/

/-- Models the regexp search of `"(.*?)"` by `extractStringLiteral`: the text
between the first double quote of the line and the next one, or the empty
string when the line does not contain two double quotes. -/
def extractStringLiteral (line : String) : String :=
  match line.data.dropWhile (fun c => c ≠ '"') with
  | [] => ""
  | _ :: tail =>
    match tail.dropWhile (fun c => c ≠ '"') with
    | [] => ""
    | _ :: _ => ⟨tail.takeWhile (fun c => c ≠ '"')⟩

/-- The `ErrorStrings` section of `scanFileForPatterns` for one line. -/
def errorStringDiags (path : String) (lineNo : Nat) (line : String) : List String :=
  if containsSubstr line "t.Errorf(" || containsSubstr line "t.Error(" ||
      containsSubstr line "fmt.Errorf(" then
    let msg := extractStringLiteral line
    if msg ≠ "" then
      (if goStartsWith msg (goToUpper (goFirst1 msg)) then
        [diagMsg path lineNo "error string should not be capitalized"] else [])
      ++
      (if goEndsWith msg "." then
        [diagMsg path lineNo "error string should not end with '.'"] else [])
    else []
  else []

/-- Is there a comma outside double quotes in an argument text?  Models the
character loops of the `t.Log`/`t.Logf` checks (toggle `inQuotes` at each
quote, report a comma seen while outside quotes). -/
def commaOutsideQuotes (args : List Char) : Bool :=
  (args.foldl
    (fun (st : Bool × Bool) r =>
      if st.2 then st
      else if r = '"' then (!st.1, st.2)
      else if r = ',' ∧ !st.1 then (st.1, true)
      else st)
    (false, false)).2

/-- The `t.Log()` / `t.Logf()` section of `scanFileForPatterns` for one line
of a `_test.go` file.  The regexps `^t\.Log\((.*)\)$` and `^t\.Logf\((.*)\)$`
match the trimmed line exactly when it starts with the call opener and ends
with a closing parenthesis; the captured group is the text between. -/
def tLogDiags (path : String) (lineNo : Nat) (line : String) : List String :=
  let trimmed := goTrimSpace line
  let td := trimmed.data
  (if goStartsWith trimmed "t.Log(" ∧ td.getLast? = some ')' then
    let args := (td.drop 6).dropLast
    if commaOutsideQuotes args then
      [diagMsg path lineNo
        ("t.Log() should not use multiple arguments: " ++ trimmed ++ ", instead use t.Logf()")]
    else []
  else [])
  ++
  (if goStartsWith trimmed "t.Logf(" ∧ td.getLast? = some ')' then
    let args := (td.drop 7).dropLast
    if !commaOutsideQuotes args then
      [diagMsg path lineNo
        ("t.Logf() must have arguments after format string: " ++ trimmed ++ ", instead use t.Log()")]
    else []
  else [])

/-- All checks `scanFileForPatterns` performs on one line, in source order:
the `time.Sleep` ban, the `cfgplugins` return-type rule, the piecemeal
string-concatenation rule, the error-string style rule, and (for test files)
the `t.Log`/`t.Logf` argument-shape rules. -/
def scanLine (path : String) (lineNo : Nat) (line : String) : List String :=
  (if containsSubstr line "time.Sleep(" then
    [diagMsg path lineNo "avoid time.Sleep, use gnmi.Watch"] else [])
  ++
  (if containsSubstr path "cfgplugins" ∧ containsSubstr line "func" ∧ containsSubstr line "\x7b" then
    (if !containsSubstr line "gnmi.SetRequest" ∧ !containsSubstr line "gnmi.Batch" then
      [diagMsg path lineNo "cfgplugin function should return gnmi Batch/SetRequest"] else [])
  else [])
  ++
  (if containsSubstr line "\" + \"" then
    [diagMsg path lineNo "avoid piecing strings with '+', use fmt.Sprintf or strings.Builder"]
  else [])
  ++ errorStringDiags path lineNo line
  ++ (if goEndsWith path "_test.go" then tLogDiags path lineNo line else [])

/-- Models `scanFileForPatterns`: every raw line is scanned, with line
numbers counted from 1. -/
def scanFileForPatterns (path : String) (rawLines : List String) : List String :=
  ((rawLines.enum).map (fun p => scanLine path (p.1 + 1) p.2)).flatten

/-! ## MixedCaps naming checks (`checkMixedCaps`) -/

/-- One character of the regexp class `[A-Za-z0-9]`. -/
def isAsciiAlphanum (c : Char) : Bool := isAsciiUpper c || isAsciiLower c || isAsciiDigit c

/-- Models `exportedMixedCaps.MatchString`, the regexp `^[A-Z][A-Za-z0-9]*$`. -/
def matchExportedMixedCaps (s : String) : Bool :=
  match s.data with
  | [] => false
  | c :: rest => isAsciiUpper c && rest.all isAsciiAlphanum

/-- Models `unexportedMixedCaps.MatchString`, the regexp `^[a-z][A-Za-z0-9]*$`. -/
def matchUnexportedMixedCaps (s : String) : Bool :=
  match s.data with
  | [] => false
  | c :: rest => isAsciiLower c && rest.all isAsciiAlphanum

/-- Models `snakeCase.MatchString`, the regexp `_`: the name contains an
underscore anywhere. -/
def matchSnakeCase (s : String) : Bool := containsSubstr s "_"

/-- Models `badAcronyms.MatchString`, the regexp `Id|Url|Http`: the name
contains one of the three literals anywhere, case-sensitively. -/
def matchBadAcronyms (s : String) : Bool :=
  containsSubstr s "Id" || containsSubstr s "Url" || containsSubstr s "Http"

/-- The `checkMixedCaps` diagnostics for one function declaration.  Every
position is resolved against a freshly created file set (`NewFileSetLine`). -/
def mixedCapsFuncDiags (path : String) (fd : FuncDecl) : List String :=
  (if matchSnakeCase fd.name then
    [diagMsg path (NewFileSetLine fd.pos)
      ("function name " ++ goQuote fd.name ++ " should not use snake_case")] else [])
  ++
  (if goIsExported fd.name then
    (if !matchExportedMixedCaps fd.name then
      [diagMsg path (NewFileSetLine fd.pos)
        ("exported function name " ++ goQuote fd.name ++ " should use MixedCaps")] else [])
  else
    (if !matchUnexportedMixedCaps fd.name then
      [diagMsg path (NewFileSetLine fd.pos)
        ("unexported function name " ++ goQuote fd.name ++ " should use mixedCaps")] else []))
  ++
  (if matchBadAcronyms fd.name then
    [diagMsg path (NewFileSetLine fd.pos)
      ("function name " ++ goQuote fd.name ++ " has mis-cased acronym (use ID/URL/HTTP)")]
  else [])

/-- The `checkMixedCaps` diagnostics for one type spec. -/
def mixedCapsTypeDiags (path : String) (name : String) (pos : Nat) : List String :=
  (if matchSnakeCase name then
    [diagMsg path (NewFileSetLine pos)
      ("type name " ++ goQuote name ++ " should not use snake_case")] else [])
  ++
  (if goIsExported name then
    (if !matchExportedMixedCaps name then
      [diagMsg path (NewFileSetLine pos)
        ("exported type name " ++ goQuote name ++ " should use MixedCaps")] else [])
  else [])
  ++
  (if matchBadAcronyms name then
    [diagMsg path (NewFileSetLine pos)
      ("type name " ++ goQuote name ++ " has mis-cased acronym")]
  else [])

/-- The `checkMixedCaps` diagnostics for one name of a value spec. -/
def mixedCapsVarDiags (path : String) (ident : GoIdent) : List String :=
  (if matchSnakeCase ident.name then
    [diagMsg path (NewFileSetLine ident.pos)
      ("variable name " ++ goQuote ident.name ++ " should not use snake_case")] else [])
  ++
  (if goIsExported ident.name then
    (if !matchExportedMixedCaps ident.name then
      [diagMsg path (NewFileSetLine ident.pos)
        ("exported var name " ++ goQuote ident.name ++ " should use MixedCaps")] else [])
  else [])
  ++
  (if matchBadAcronyms ident.name then
    [diagMsg path (NewFileSetLine ident.pos)
      ("variable name " ++ goQuote ident.name ++ " has mis-cased acronym")]
  else [])

/-- The `checkMixedCaps` diagnostics for one spec of a `GenDecl` (any
declaration token: `var`, `const` and `type` groups are all inspected). -/
def mixedCapsSpecDiags (path : String) : GoSpec → List String
  | .typeSpec name pos => mixedCapsTypeDiags path name pos
  | .valueSpec names _ _ => (names.map (mixedCapsVarDiags path)).flatten
  | .importSpec => []

/-- The `checkMixedCaps` diagnostics for one top-level declaration. -/
def mixedCapsDeclDiags (path : String) : GoDecl → List String
  | .funcDecl fd => mixedCapsFuncDiags path fd
  | .genDecl _ specs => (specs.map (mixedCapsSpecDiags path)).flatten
  | .badDecl => []

/-- Models `checkMixedCaps`: the naming checks over all top-level
declarations, with positions resolved against a fresh, empty file set. -/
def checkMixedCaps (path : String) (f : AstFile) : List String :=
  (f.decls.map (mixedCapsDeclDiags path)).flatten

/-! ## Parameter-shape rule (`checkStructParameterUsage`) -/

/-- Models `isAllowedParam`: a pointer to a selector whose final name is `T`
or `DUTDevice`; the package qualifier of the selector is not examined. -/
def isAllowedParam : GoExpr → Bool
  | .star (.sel _ name) => name == "T" || name == "DUTDevice"
  | _ => false

/-- Models `isStructType`: the type is a struct literal type. -/
def isStructType : GoExpr → Bool
  | .structTy => true
  | _ => false

/-- Models `isPointerToStruct`: the type is a pointer to a struct literal
type. -/
def isPointerToStruct : GoExpr → Bool
  | .star .structTy => true
  | _ => false

/-- Models `allParamsAllowed`: every parameter field has an allowed type. -/
def allParamsAllowed (params : List GoField) : Bool :=
  params.all (fun p => isAllowedParam p.type)

/-- The predicate under which a parameter field is counted by
`checkStructParameterUsage`: not exempt, and neither a struct literal nor a
pointer to one. -/
def countsAsNonStruct (p : GoField) : Bool :=
  !isAllowedParam p.type && !isStructType p.type && !isPointerToStruct p.type

/-- Models `checkStructParameterUsage`. -/
def checkStructParameterUsage (path : String) (fn : FuncDecl) (fsLine : Nat → Nat) :
    List String :=
  let line := fsLine fn.pos
  if fn.params.length = 0 then []
  else if fn.params.length ≤ 2 ∧ allParamsAllowed fn.params then []
  else
    let nonStructCount := (fn.params.filter countsAsNonStruct).length
    if nonStructCount > 1 then
      [diagMsg path line
        ("function " ++ fn.name ++ " has multiple parameters, consider using a single config struct")]
    else []

/-! ## Test-file structure rule (`validateTestFileStructure`) -/

/-- Does a single-field parameter list consist of one `*testing.M`
parameter?  Models the nested type assertions of the `TestMain` check. -/
def isTestingMParam : GoField → Bool
  | ⟨_, .star (.sel (.ident "testing") "M")⟩ => true
  | _ => false

/-- One step of the collection loop of `validateTestFileStructure`: skip
non-functions and bodyless functions; a `TestMain` with exactly one
parameter sets the hook flag (when the parameter is `*testing.M`) and is
never collected; other `Test`-prefixed functions are collected in order. -/
def collectStep (acc : Bool × List FuncDecl) : GoDecl → Bool × List FuncDecl
  | .funcDecl fn =>
    if fn.body.isNone then acc
    else if fn.name = "TestMain" ∧ fn.params.length = 1 then
      (acc.1 || (match fn.params with
                 | [p] => isTestingMParam p
                 | _ => false), acc.2)
    else if goStartsWith fn.name "Test" then (acc.1, acc.2 ++ [fn])
    else acc
  | _ => acc

/-- The collection loop of `validateTestFileStructure`: the `hasTestMain`
flag and the ordered list of collected test functions. -/
def collectTests (decls : List GoDecl) : Bool × List FuncDecl :=
  decls.foldl collectStep (false, [])

/-- The table-driven examination of the first collected test function: its
body must contain both a qualifying slice/composite declaration and a
`range` loop, else one diagnostic is emitted. -/
def tableDrivenDiags (path : String) (fn : FuncDecl) : List String :=
  let hasSliceDecl := stmtListHasSliceDecl (fn.body.getD [])
  let hasForLoop := stmtListHasRange (fn.body.getD [])
  if !(hasSliceDecl && hasForLoop) then
    [fileDiagMsg path
      ("test function " ++ fn.name ++
        " does not follow table-driven test pattern. Please follow table driven approach ref: https://go.dev/wiki/TableDrivenTests")]
  else []

/-- Models `validateTestFileStructure`. -/
def validateTestFileStructure (path : String) (f : AstFile) : List String :=
  let c := collectTests f.decls
  let e1 : List String :=
    if !c.1 then [fileDiagMsg path "missing TestMain function"] else []
  match c.2 with
  | [] => e1 ++ [fileDiagMsg path "no test functions found"]
  | mainTest :: restFns =>
    let e2 : List String :=
      if (mainTest :: restFns).length > 1 then
        [fileDiagMsg path
          "multiple top-level test functions found; please follow table-driven approach ref: https://go.dev/wiki/TableDrivenTests"]
      else []
    e1 ++ e2 ++ tableDrivenDiags path mainTest

/-! ## Per-function structural checks of `validateGoFile` -/

/-- The scan of a parameter list for the first `*testing.T` parameter that
has at least one name; returns that name, or the empty string when no such
parameter exists (mirroring the `tName` variable of the source). -/
def findTestingTParam : List GoField → String
  | [] => ""
  | p :: rest =>
    match p.type with
    | .star (.sel (.ident "testing") "T") =>
      (match p.names with
       | n :: _ => n
       | [] => findTestingTParam rest)
    | _ => findTestingTParam rest

/-- The diagnostics the declaration loop of `validateGoFile` emits for one
function declaration, in source order: exported-doc checks, the `Get`
prefix ban, the test-helper check, the lowercase test-function check, and
the parameter-shape rule. -/
def funcDeclDiags (path : String) (fsLine : Nat → Nat) (fd : FuncDecl) : List String :=
  let line := fsLine fd.pos
  (if goIsExported fd.name ∧ !goStartsWith fd.name "Test" then
    (match fd.doc with
     | none => [diagMsg path line ("exported function " ++ fd.name ++ " must have doc comment")]
     | some d =>
       if !goEndsWith (goTrimSpace d) "." then
         [diagMsg path line "function comment should end with '.'"]
       else [])
  else [])
  ++
  (if goStartsWith fd.name "Get" then
    [diagMsg path line ("function " ++ fd.name ++ " should not use Get prefix")] else [])
  ++
  (if goEndsWith path "_test.go" ∧ !fd.recv ∧ !goStartsWith fd.name "Test" then
    (let tName := findTestingTParam fd.params
     if tName ≠ "" then
       (if !stmtListHasHelperCall tName (fd.body.getD []) then
         [diagMsg path line
           ("test helper function " ++ fd.name ++ " should call " ++ tName ++ ".Helper()")]
       else [])
     else [])
  else [])
  ++
  (if goEndsWith path "_test.go" ∧ !fd.recv ∧ !goStartsWith fd.name "Test" then
    (if fd.name ≠ "" then
      (if goToUpper (goFirst1 fd.name) = goFirst1 fd.name then
        [diagMsg path line
          ("test function " ++ fd.name ++ " must start with lowercase letter")]
      else [])
    else [])
  else [])
  ++ checkStructParameterUsage path fd fsLine

/-! ## Remaining per-file loops and the per-file entry point -/

/-- Models the rendering `fmt.Sprintf("%s", vs.Type)` of a type expression.
An `*ast.Ident` prints its name through its `String` method; every other
expression shape has no `String` method and is printed by `fmt` as a
struct dump starting with the characters `&` and a brace, whose exact text
no rule depends on; it is modelled by a fixed marker. -/
def goTypeString : GoExpr → String
  | .ident n => n
  | _ => "&(type-expr)"

/-- The underscore scan over `f.Scope.Objects` for one object. -/
def scopeObjectDiags (path : String) (fsLine : Nat → Nat) (obj : GoIdent) : List String :=
  if containsSubstr obj.name "_" then
    [diagMsg path (fsLine obj.pos) ("identifier " ++ obj.name ++ " should not contain underscores")]
  else []

/-- The repeats-its-type scan for one spec of a `var` declaration group. -/
def varRepeatSpecDiags (path : String) (fsLine : Nat → Nat) : GoSpec → List String
  | .valueSpec names (some ty) _ =>
    let typeName := goTypeString ty
    (names.map (fun nm =>
      if containsSubstr (goToLower nm.name) (goToLower typeName) then
        [diagMsg path (fsLine nm.pos)
          ("variable " ++ nm.name ++ " repeats its type " ++ typeName ++ " in name")]
      else [])).flatten
  | _ => []

/-- The repeats-its-type scan over all declarations (only `var` groups with
an explicit type are examined). -/
def varRepeatDiags (path : String) (fsLine : Nat → Nat) (decls : List GoDecl) : List String :=
  (decls.map (fun d =>
    match d with
    | .genDecl .varTok specs => (specs.map (varRepeatSpecDiags path fsLine)).flatten
    | _ => [])).flatten

/-- Models `validateGoFile`.  Its inputs are the file path, the result of
the structural parse (`none` when `parser.ParseFile` failed, `some f`
together with the parse-time position table `fsLine` on success) and the
raw lines of the file.  On parse failure the single failure diagnostic is
emitted and the function returns at once; otherwise the test-structure
rule (for `_test.go` paths), the declaration loop, the scope-object loop,
the repeats-its-type loop, `checkMixedCaps` and `scanFileForPatterns` run
in order. -/
def validateGoFile (path : String) (parsed : Option AstFile) (fsLine : Nat → Nat)
    (rawLines : List String) : List String :=
  match parsed with
  | none => [fileDiagMsg path "failed parsing"]
  | some f =>
    (if goEndsWith path "_test.go" then validateTestFileStructure path f else [])
    ++
    (f.decls.map (fun d =>
      match d with
      | .funcDecl fd => funcDeclDiags path fsLine fd
      | _ => [])).flatten
    ++ (f.scopeObjects.map (scopeObjectDiags path fsLine)).flatten
    ++ varRepeatDiags path fsLine f.decls
    ++ checkMixedCaps path f
    ++ scanFileForPatterns path rawLines

/-- One input file of a run: its path, parse outcome, position table and raw
lines. -/
structure FileInput where
  path : String
  parsed : Option AstFile
  fsLine : Nat → Nat
  rawLines : List String

/-- Models the traversal loop of `main`: every discovered file is validated
in order and the per-file diagnostics are appended; no file's outcome stops
the traversal. -/
def validateAll : List FileInput → List String
  | [] => []
  | f :: rest => validateGoFile f.path f.parsed f.fsLine f.rawLines ++ validateAll rest

/-! ## Toolkit lemmas about strings and diagnostics -/

theorem str_append_cancel_left {a b c : String} (h : a ++ b = a ++ c) : b = c := by
  apply String.ext
  have hd := congrArg String.data h
  rw [String.data_append, String.data_append] at hd
  exact List.append_cancel_left hd

theorem str_head?_append (a b : String) {c : Char} (ha : a.data.head? = some c) :
    (a ++ b).data.head? = some c := by
  rw [String.data_append, List.head?_append, ha]
  rfl

theorem str_getLast?_append (a b : String) {c : Char} (hb : b.data.getLast? = some c) :
    (a ++ b).data.getLast? = some c := by
  rw [String.data_append, List.getLast?_append, hb]
  rfl

theorem diagMsg_rest_inj {path : String} {l : Nat} {r1 r2 : String}
    (h : diagMsg path l r1 = diagMsg path l r2) : r1 = r2 :=
  str_append_cancel_left (a := path ++ ":" ++ toString l ++ ": ") h

theorem diagMsg_ne_of_rest_head {path : String} {l : Nat} {r1 r2 : String} {c1 c2 : Char}
    (h1 : r1.data.head? = some c1) (h2 : r2.data.head? = some c2) (hne : c1 ≠ c2) :
    diagMsg path l r1 ≠ diagMsg path l r2 := by
  intro e
  have hr := diagMsg_rest_inj e
  rw [hr] at h1
  rw [h1] at h2
  exact hne (Option.some.inj h2)

theorem diagMsg_ne_of_rest_last {path : String} {l : Nat} {r1 r2 : String} {c1 c2 : Char}
    (h1 : r1.data.getLast? = some c1) (h2 : r2.data.getLast? = some c2) (hne : c1 ≠ c2) :
    diagMsg path l r1 ≠ diagMsg path l r2 := by
  intro e
  have hr := diagMsg_rest_inj e
  rw [hr] at h1
  rw [h1] at h2
  exact hne (Option.some.inj h2)

theorem rest_app_lit_ne {A l1 l2 : String} (h : l1 ≠ l2) : A ++ l1 ≠ A ++ l2 :=
  fun e => h (str_append_cancel_left e)

theorem mem_of_ite_nil {α : Type} {c : Prop} [Decidable c] {a : α} {l : List α}
    (h : a ∈ (if c then l else [])) : a ∈ l := by
  split at h
  · exact h
  · exact absurd h (List.not_mem_nil a)

theorem toUpper_eq_self_of_not_lower {c : Char} (h : isAsciiLower c = false) :
    Char.toUpper c = c := by
  have hn : ¬(c.toNat ≥ 97 ∧ c.toNat ≤ 122) := by
    simp [isAsciiLower] at h
    omega
  simp [Char.toUpper, hn]

theorem upper_not_lower {c : Char} (h : isAsciiUpper c = true) : isAsciiLower c = false := by
  simp [isAsciiUpper] at h
  simp [isAsciiLower]
  omega

theorem goStartsWith_toUpper_first {msg : String} {c : Char} {cs : List Char}
    (hd : msg.data = c :: cs) (hc : Char.toUpper c = c) :
    goStartsWith msg (goToUpper (goFirst1 msg)) = true := by
  unfold goStartsWith goToUpper goFirst1
  rw [hd]
  simp [List.isPrefixOf, hc]

theorem listIsInfixOf_iff {sub l : List Char} : listIsInfixOf sub l = true ↔ sub <:+: l := by
  induction l with
  | nil => simp [listIsInfixOf, List.isEmpty_iff]
  | cons c rest ih => simp [listIsInfixOf, ih, List.infix_cons_iff]

theorem containsSubstr_iff {s sub : String} :
    containsSubstr s sub = true ↔ sub.data <:+: s.data :=
  listIsInfixOf_iff

theorem matchBadAcronyms_iff {s : String} :
    matchBadAcronyms s = true ↔
      ("Id".data <:+: s.data ∨ "Url".data <:+: s.data ∨ "Http".data <:+: s.data) := by
  simp [matchBadAcronyms, containsSubstr_iff, or_assoc]

/-! ## Claim C1 -/

/-- Claim C1, counterexample.  The claim asserts that a file whose structural
parse fails still has every line-oriented text rule run over its raw lines,
so that a raw line containing `time.Sleep(` would still yield its
banned-pattern diagnostic.  On the code this is false: `validateGoFile`
returns immediately after appending the parse-failure diagnostic, before
`scanFileForPatterns` is reached.  At the concrete input below the file's
single raw line contains a blocking `time.Sleep(` call, the text rule run on
its own would flag it, yet the engine's output is only the parse-failure
diagnostic. -/
theorem parse_failure_text_rules_counterexample :
    validateGoFile "a.go" none NewFileSetLine ["time.Sleep(1)"] = ["a.go: failed parsing"] ∧
    diagMsg "a.go" 1 "avoid time.Sleep, use gnmi.Watch" ∉
      validateGoFile "a.go" none NewFileSetLine ["time.Sleep(1)"] ∧
    diagMsg "a.go" 1 "avoid time.Sleep, use gnmi.Watch" ∈
      scanFileForPatterns "a.go" ["time.Sleep(1)"] := by
  refine ⟨rfl, ?_, ?_⟩ <;> decide

/-- Claim C1 (amended): for every input file whose structural parse fails,
the engine emits exactly one parse-failure diagnostic for that file and
nothing else — all structural rules and also all line-oriented text rules
are skipped for it — and the failure never aborts analysis of the remaining
files: the run on the failing file followed by any remaining files produces
the failure diagnostic followed by exactly the remaining files'
diagnostics. -/
theorem parse_failure_single_diag_and_isolation (path : String) (fsLine : Nat → Nat)
    (rawLines : List String) (rest : List FileInput) :
    validateGoFile path none fsLine rawLines = [fileDiagMsg path "failed parsing"] ∧
    validateAll (⟨path, none, fsLine, rawLines⟩ :: rest) =
      fileDiagMsg path "failed parsing" :: validateAll rest :=
  ⟨rfl, rfl⟩

/-! ## Claim C3 -/

/-- Claim C3, counterexample.  The claim asserts that a scanned line of the
form `errors.New("Something failed.")` yields two diagnostics from the
error-string-style rule.  On the code this is false: the rule only fires on
lines containing `t.Errorf(`, `t.Error(` or `fmt.Errorf(`; a line calling
`errors.New` is not matched at all, so the concrete line below yields zero
diagnostics. -/
theorem errors_new_no_diag_counterexample :
    errorStringDiags "a.go" 1 "errors.New(\"Something failed.\")" = [] ∧
    scanFileForPatterns "a.go" ["errors.New(\"Something failed.\")"] = [] := by
  exact ⟨rfl, rfl⟩

/-- Claim C3 (amended): for every scanned source line invoking `t.Error(`,
`t.Errorf(` or `fmt.Errorf(` whose first quoted literal starts with an
upper-case letter and ends with a period, the error-string-style rule emits
exactly two diagnostics for that line: one for the capitalized first letter
and one for the trailing period.  (Lines invoking `errors.New` are not
matched by this rule.) -/
theorem error_string_two_diags (path : String) (lineNo : Nat) (line : String)
    (c : Char) (cs : List Char)
    (htrig : (containsSubstr line "t.Errorf(" || containsSubstr line "t.Error(" ||
              containsSubstr line "fmt.Errorf(") = true)
    (hmsg : (extractStringLiteral line).data = c :: cs)
    (hupper : isAsciiUpper c = true)
    (hdot : goEndsWith (extractStringLiteral line) "." = true) :
    errorStringDiags path lineNo line =
      [diagMsg path lineNo "error string should not be capitalized",
       diagMsg path lineNo "error string should not end with '.'"] := by
  have hne : extractStringLiteral line ≠ "" := by
    intro e
    rw [e] at hmsg
    exact List.cons_ne_nil c cs hmsg.symm
  have hpre : goStartsWith (extractStringLiteral line)
      (goToUpper (goFirst1 (extractStringLiteral line))) = true :=
    goStartsWith_toUpper_first hmsg (toUpper_eq_self_of_not_lower (upper_not_lower hupper))
  simp [errorStringDiags, htrig, hne, hpre, hdot]

/-- Claim C3, witness: the concrete line `fmt.Errorf("Something failed.")`
satisfies the trigger and literal-shape hypotheses and receives exactly the
two diagnostics. -/
theorem error_string_two_diags_witness :
    (containsSubstr "fmt.Errorf(\"Something failed.\")" "t.Errorf(" ||
     containsSubstr "fmt.Errorf(\"Something failed.\")" "t.Error(" ||
     containsSubstr "fmt.Errorf(\"Something failed.\")" "fmt.Errorf(") = true ∧
    errorStringDiags "e.go" 2 "fmt.Errorf(\"Something failed.\")" =
      [diagMsg "e.go" 2 "error string should not be capitalized",
       diagMsg "e.go" 2 "error string should not end with '.'"] :=
  ⟨by decide,
   error_string_two_diags "e.go" 2 "fmt.Errorf(\"Something failed.\")" 'S'
     "omething failed.".data (by decide) (by decide) (by decide) (by decide)⟩

/-! ## Claim C9 -/

/-- Claim C9: the parameter-shape exemption `isAllowedParam` accepts a
pointer to a selector whose final name is `T` or `DUTDevice` regardless of
the package qualifier (the selector's base expression is never examined),
and such a parameter is never counted toward the non-struct parameter
limit of `checkStructParameterUsage`. -/
theorem allowed_param_ignores_qualifier (x : GoExpr) (ns : List String) :
    isAllowedParam (.star (.sel x "T")) = true ∧
    isAllowedParam (.star (.sel x "DUTDevice")) = true ∧
    countsAsNonStruct ⟨ns, .star (.sel x "T")⟩ = false ∧
    countsAsNonStruct ⟨ns, .star (.sel x "DUTDevice")⟩ = false :=
  ⟨rfl, rfl, rfl, rfl⟩

/-! ## Claim C5 -/

/-- Claim C5: running the analysis on identical content produces an
identical diagnostic set.  The only internal iteration whose order is not
fixed by the input is the range over the Go map `f.Scope.Objects`; the
embedding therefore receives the scope objects as a list, and any two runs
differ at most in a permutation of that list.  For every two such orders the
full diagnostic lists of `validateGoFile` are permutations of each other —
the same diagnostics with the same file paths, line numbers and messages. -/
theorem analysis_deterministic (path : String) (decls : List GoDecl)
    (objs1 objs2 : List GoIdent) (fsLine : Nat → Nat) (rawLines : List String)
    (h : objs1.Perm objs2) :
    (validateGoFile path (some ⟨decls, objs1⟩) fsLine rawLines).Perm
      (validateGoFile path (some ⟨decls, objs2⟩) fsLine rawLines) := by
  simp only [validateGoFile]
  apply List.Perm.append_right
  apply List.Perm.append_right
  apply List.Perm.append_right
  apply List.Perm.append_left
  exact (h.map (scopeObjectDiags path fsLine)).flatten

/-- Claim C5, witness: two runs whose scope-object maps are iterated in
opposite orders produce permutation-equal diagnostic lists. -/
theorem analysis_deterministic_witness :
    (([⟨"a_b", 3⟩, ⟨"ok", 4⟩] : List GoIdent).Perm [⟨"ok", 4⟩, ⟨"a_b", 3⟩]) ∧
    (validateGoFile "w.go" (some ⟨[], [⟨"a_b", 3⟩, ⟨"ok", 4⟩]⟩) NewFileSetLine []).Perm
      (validateGoFile "w.go" (some ⟨[], [⟨"ok", 4⟩, ⟨"a_b", 3⟩]⟩) NewFileSetLine []) :=
  ⟨List.Perm.swap (⟨"ok", 4⟩ : GoIdent) ⟨"a_b", 3⟩ [],
   analysis_deterministic "w.go" [] [⟨"a_b", 3⟩, ⟨"ok", 4⟩] [⟨"ok", 4⟩, ⟨"a_b", 3⟩]
     NewFileSetLine [] (List.Perm.swap (⟨"ok", 4⟩ : GoIdent) ⟨"a_b", 3⟩ [])⟩

/-! ## Claim C7 -/

/-- A parameter list in which every field is exempt contributes no counted
parameters. -/
theorem filter_nonstruct_nil_of_allowed {ps : List GoField}
    (h : allParamsAllowed ps = true) : ps.filter countsAsNonStruct = [] := by
  rw [List.filter_eq_nil_iff]
  intro p hp
  have hall := (List.all_eq_true.1 h) p hp
  simp only [countsAsNonStruct, hall]
  simp

/-- Claim C7: the parameter-shape rule flags a function exactly when, after
exempting the framework-context parameter types, more than one remaining
parameter field has a type that is neither a struct literal nor a pointer
to struct; a function with zero parameters or with only exempt parameters
is never flagged. -/
theorem param_shape_flag_iff (path : String) (fn : FuncDecl) (fsLine : Nat → Nat) :
    (checkStructParameterUsage path fn fsLine ≠ [] ↔
      1 < (fn.params.filter countsAsNonStruct).length) ∧
    (fn.params = [] → checkStructParameterUsage path fn fsLine = []) ∧
    (allParamsAllowed fn.params = true → checkStructParameterUsage path fn fsLine = []) := by
  refine ⟨?_, ?_, ?_⟩
  · unfold checkStructParameterUsage
    dsimp only
    split
    · next h0 =>
      rw [List.length_eq_zero] at h0
      simp [h0]
    · split
      · next h2 =>
        have hf := filter_nonstruct_nil_of_allowed h2.2
        simp [hf]
      · split
        · next hc => simpa using hc
        · next hc => simpa using hc
  · intro h0
    unfold checkStructParameterUsage
    simp [h0]
  · intro ha
    unfold checkStructParameterUsage
    dsimp only
    split
    · rfl
    · split
      · rfl
      · have hf := filter_nonstruct_nil_of_allowed ha
        simp [hf]

/-- Claim C7, witness: a function whose three parameters are all exempt
framework-context pointers (so neither early return applies trivially) is
not flagged. -/
theorem param_shape_flag_witness :
    allParamsAllowed [⟨["t"], .star (.sel (.ident "testing") "T")⟩,
      ⟨["d"], .star (.sel (.ident "ondatra") "DUTDevice")⟩,
      ⟨["u"], .star (.sel (.ident "other") "T")⟩] = true ∧
    checkStructParameterUsage "w.go"
      ⟨"Fn", 3, false,
        [⟨["t"], .star (.sel (.ident "testing") "T")⟩,
         ⟨["d"], .star (.sel (.ident "ondatra") "DUTDevice")⟩,
         ⟨["u"], .star (.sel (.ident "other") "T")⟩], none, some []⟩ NewFileSetLine = [] :=
  ⟨by decide,
   (param_shape_flag_iff "w.go"
     ⟨"Fn", 3, false,
       [⟨["t"], .star (.sel (.ident "testing") "T")⟩,
        ⟨["d"], .star (.sel (.ident "ondatra") "DUTDevice")⟩,
        ⟨["u"], .star (.sel (.ident "other") "T")⟩], none, some []⟩ NewFileSetLine).2.2
     (by decide)⟩

/-! ## Claim C4 -/

/-- Every diagnostic emitted by the per-function declaration loop is one of
the six message shapes, and the two doc-related shapes only arise under the
matching state of the declaration's doc comment. -/
theorem funcDeclDiags_mem_shape {path : String} {fsLine : Nat → Nat} {fd : FuncDecl}
    {msg : String} (h : msg ∈ funcDeclDiags path fsLine fd) :
    (fd.doc = none ∧
      msg = diagMsg path (fsLine fd.pos) ("exported function " ++ fd.name ++ " must have doc comment")) ∨
    ((∃ d, fd.doc = some d ∧ goEndsWith (goTrimSpace d) "." = false) ∧
      msg = diagMsg path (fsLine fd.pos) "function comment should end with '.'") ∨
    msg = diagMsg path (fsLine fd.pos) ("function " ++ fd.name ++ " should not use Get prefix") ∨
    msg = diagMsg path (fsLine fd.pos)
      ("test helper function " ++ fd.name ++ " should call " ++
        findTestingTParam fd.params ++ ".Helper()") ∨
    msg = diagMsg path (fsLine fd.pos) ("test function " ++ fd.name ++ " must start with lowercase letter") ∨
    msg = diagMsg path (fsLine fd.pos)
      ("function " ++ fd.name ++ " has multiple parameters, consider using a single config struct") := by
  unfold funcDeclDiags checkStructParameterUsage at h
  dsimp only at h
  rcases List.mem_append.1 h with h | h
  · rcases List.mem_append.1 h with h | h
    · rcases List.mem_append.1 h with h | h
      · rcases List.mem_append.1 h with h | h
        · have h' := mem_of_ite_nil h
          cases hd : fd.doc with
          | none =>
            simp only [hd] at h'
            exact Or.inl ⟨rfl, List.mem_singleton.1 h'⟩
          | some d =>
            simp only [hd] at h'
            by_cases hcond : (!goEndsWith (goTrimSpace d) ".") = true
            · rw [if_pos hcond] at h'
              refine Or.inr (Or.inl ⟨⟨d, rfl, ?_⟩, List.mem_singleton.1 h'⟩)
              simpa using hcond
            · rw [if_neg hcond] at h'
              exact absurd h' (List.not_mem_nil msg)
        · exact Or.inr (Or.inr (Or.inl (List.mem_singleton.1 (mem_of_ite_nil h))))
      · exact Or.inr (Or.inr (Or.inr (Or.inl (List.mem_singleton.1
          (mem_of_ite_nil (mem_of_ite_nil (mem_of_ite_nil h)))))))
    · exact Or.inr (Or.inr (Or.inr (Or.inr (Or.inl (List.mem_singleton.1
        (mem_of_ite_nil (mem_of_ite_nil (mem_of_ite_nil h))))))))
  · split at h
    · exact absurd h (List.not_mem_nil msg)
    · split at h
      · exact absurd h (List.not_mem_nil msg)
      · exact Or.inr (Or.inr (Or.inr (Or.inr (Or.inr (List.mem_singleton.1
          (mem_of_ite_nil h))))))

/-- Claim C4: for an exported function whose name does not start with
`Test`: with no documentation text the engine emits the must-have-doc
diagnostic for it and never the should-end-with-period diagnostic; with a
documentation text ending in a period it emits neither doc-related
diagnostic. -/
theorem exported_doc_rule_correct (path : String) (fsLine : Nat → Nat) (fd : FuncDecl)
    (hexp : goIsExported fd.name = true) (hnt : goStartsWith fd.name "Test" = false) :
    (fd.doc = none →
      diagMsg path (fsLine fd.pos) ("exported function " ++ fd.name ++ " must have doc comment")
        ∈ funcDeclDiags path fsLine fd ∧
      diagMsg path (fsLine fd.pos) "function comment should end with '.'"
        ∉ funcDeclDiags path fsLine fd) ∧
    (∀ d, fd.doc = some d → goEndsWith (goTrimSpace d) "." = true →
      diagMsg path (fsLine fd.pos) ("exported function " ++ fd.name ++ " must have doc comment")
        ∉ funcDeclDiags path fsLine fd ∧
      diagMsg path (fsLine fd.pos) "function comment should end with '.'"
        ∉ funcDeclDiags path fsLine fd) := by
  have hlast_should :
      ("function comment should end with '.'" : String).data.getLast? = some '\'' := by decide
  have hlast_must :
      (("exported function " ++ fd.name ++ " must have doc comment") : String).data.getLast? =
        some 't' :=
    str_getLast?_append ("exported function " ++ fd.name) " must have doc comment" (by decide)
  have hlast_get :
      (("function " ++ fd.name ++ " should not use Get prefix") : String).data.getLast? =
        some 'x' :=
    str_getLast?_append ("function " ++ fd.name) " should not use Get prefix" (by decide)
  have hlast_helper :
      (("test helper function " ++ fd.name ++ " should call " ++
        findTestingTParam fd.params ++ ".Helper()") : String).data.getLast? = some ')' :=
    str_getLast?_append
      ("test helper function " ++ fd.name ++ " should call " ++ findTestingTParam fd.params)
      ".Helper()" (by decide)
  have hlast_case :
      (("test function " ++ fd.name ++ " must start with lowercase letter") : String).data.getLast? =
        some 'r' :=
    str_getLast?_append ("test function " ++ fd.name) " must start with lowercase letter" (by decide)
  have hlast_struct :
      (("function " ++ fd.name ++
        " has multiple parameters, consider using a single config struct") : String).data.getLast? =
        some 't' :=
    str_getLast?_append ("function " ++ fd.name)
      " has multiple parameters, consider using a single config struct" (by decide)
  have hhead_must :
      (("exported function " ++ fd.name ++ " must have doc comment") : String).data.head? =
        some 'e' :=
    str_head?_append ("exported function " ++ fd.name) " must have doc comment"
      (str_head?_append "exported function " fd.name (by decide))
  have hhead_struct :
      (("function " ++ fd.name ++
        " has multiple parameters, consider using a single config struct") : String).data.head? =
        some 'f' :=
    str_head?_append ("function " ++ fd.name)
      " has multiple parameters, consider using a single config struct"
      (str_head?_append "function " fd.name (by decide))
  constructor
  · intro hdoc
    constructor
    · unfold funcDeclDiags
      dsimp only
      apply List.mem_append_left
      apply List.mem_append_left
      apply List.mem_append_left
      apply List.mem_append_left
      simp [hexp, hnt, hdoc]
    · intro hmem
      rcases funcDeclDiags_mem_shape hmem with ⟨_, heq⟩ | ⟨⟨d, hd, _⟩, _⟩ | heq | heq | heq | heq
      · exact diagMsg_ne_of_rest_last hlast_should hlast_must (by decide) heq
      · rw [hdoc] at hd
        exact Option.noConfusion hd
      · exact diagMsg_ne_of_rest_last hlast_should hlast_get (by decide) heq
      · exact diagMsg_ne_of_rest_last hlast_should hlast_helper (by decide) heq
      · exact diagMsg_ne_of_rest_last hlast_should hlast_case (by decide) heq
      · exact diagMsg_ne_of_rest_last hlast_should hlast_struct (by decide) heq
  · intro d hdoc hdot
    constructor
    · intro hmem
      rcases funcDeclDiags_mem_shape hmem with ⟨hd, _⟩ | ⟨_, heq⟩ | heq | heq | heq | heq
      · rw [hdoc] at hd
        exact Option.noConfusion hd
      · exact diagMsg_ne_of_rest_last hlast_must hlast_should (by decide) heq
      · exact diagMsg_ne_of_rest_last hlast_must hlast_get (by decide) heq
      · exact diagMsg_ne_of_rest_last hlast_must hlast_helper (by decide) heq
      · exact diagMsg_ne_of_rest_last hlast_must hlast_case (by decide) heq
      · exact diagMsg_ne_of_rest_head hhead_must hhead_struct (by decide) heq
    · intro hmem
      rcases funcDeclDiags_mem_shape hmem with ⟨_, heq⟩ | ⟨⟨d2, hd2, hend2⟩, _⟩ | heq | heq | heq | heq
      · exact diagMsg_ne_of_rest_last hlast_should hlast_must (by decide) heq
      · rw [hdoc] at hd2
        have hde : d = d2 := Option.some.inj hd2
        rw [← hde] at hend2
        rw [hdot] at hend2
        exact Bool.noConfusion hend2
      · exact diagMsg_ne_of_rest_last hlast_should hlast_get (by decide) heq
      · exact diagMsg_ne_of_rest_last hlast_should hlast_helper (by decide) heq
      · exact diagMsg_ne_of_rest_last hlast_should hlast_case (by decide) heq
      · exact diagMsg_ne_of_rest_last hlast_should hlast_struct (by decide) heq

/-! ## Claim C8 -/

/-- Every function-name diagnostic of `checkMixedCaps` renders line 0. -/
theorem mixedCapsFuncDiags_shape {path : String} {fd : FuncDecl} {msg : String}
    (h : msg ∈ mixedCapsFuncDiags path fd) : ∃ r, msg = diagMsg path 0 r := by
  unfold mixedCapsFuncDiags at h
  rcases List.mem_append.1 h with h | h
  · rcases List.mem_append.1 h with h | h
    · exact ⟨_, List.mem_singleton.1 (mem_of_ite_nil h)⟩
    · split at h
      · exact ⟨_, List.mem_singleton.1 (mem_of_ite_nil h)⟩
      · exact ⟨_, List.mem_singleton.1 (mem_of_ite_nil h)⟩
  · exact ⟨_, List.mem_singleton.1 (mem_of_ite_nil h)⟩

/-- Every type-name diagnostic of `checkMixedCaps` renders line 0. -/
theorem mixedCapsTypeDiags_shape {path tname : String} {tpos : Nat} {msg : String}
    (h : msg ∈ mixedCapsTypeDiags path tname tpos) : ∃ r, msg = diagMsg path 0 r := by
  unfold mixedCapsTypeDiags at h
  rcases List.mem_append.1 h with h | h
  · rcases List.mem_append.1 h with h | h
    · exact ⟨_, List.mem_singleton.1 (mem_of_ite_nil h)⟩
    · split at h
      · exact ⟨_, List.mem_singleton.1 (mem_of_ite_nil h)⟩
      · exact absurd h (List.not_mem_nil msg)
  · exact ⟨_, List.mem_singleton.1 (mem_of_ite_nil h)⟩

/-- Every variable-name diagnostic of `checkMixedCaps` renders line 0. -/
theorem mixedCapsVarDiags_shape {path : String} {v : GoIdent} {msg : String}
    (h : msg ∈ mixedCapsVarDiags path v) : ∃ r, msg = diagMsg path 0 r := by
  unfold mixedCapsVarDiags at h
  rcases List.mem_append.1 h with h | h
  · rcases List.mem_append.1 h with h | h
    · exact ⟨_, List.mem_singleton.1 (mem_of_ite_nil h)⟩
    · split at h
      · exact ⟨_, List.mem_singleton.1 (mem_of_ite_nil h)⟩
      · exact absurd h (List.not_mem_nil msg)
  · exact ⟨_, List.mem_singleton.1 (mem_of_ite_nil h)⟩

/-- Claim C8: every diagnostic emitted by the MixedCaps naming check reports
line number 0, whatever the declarations' recorded positions are, because
`checkMixedCaps` resolves positions against a freshly created, empty token
file set (`NewFileSetLine`), not the one used to parse the file. -/
theorem mixedcaps_diags_line_zero (path : String) (f : AstFile) (msg : String)
    (h : msg ∈ checkMixedCaps path f) : ∃ r, msg = diagMsg path 0 r := by
  unfold checkMixedCaps at h
  rcases List.mem_flatten.1 h with ⟨l, hl, hml⟩
  rcases List.mem_map.1 hl with ⟨d, _, rfl⟩
  cases d with
  | funcDecl fd => exact mixedCapsFuncDiags_shape hml
  | genDecl tok specs =>
    simp only [mixedCapsDeclDiags] at hml
    rcases List.mem_flatten.1 hml with ⟨l2, hl2, hml2⟩
    rcases List.mem_map.1 hl2 with ⟨sp, _, rfl⟩
    cases sp with
    | importSpec => exact absurd hml2 (List.not_mem_nil msg)
    | typeSpec tname tpos =>
      simp only [mixedCapsSpecDiags] at hml2
      exact mixedCapsTypeDiags_shape hml2
    | valueSpec names ty vals =>
      simp only [mixedCapsSpecDiags] at hml2
      rcases List.mem_flatten.1 hml2 with ⟨l3, hl3, hml3⟩
      rcases List.mem_map.1 hl3 with ⟨nm, _, rfl⟩
      exact mixedCapsVarDiags_shape hml3
  | badDecl => exact absurd hml (List.not_mem_nil msg)

/-- Claim C8, witness: a concrete file whose single declaration sits at
position 42 still gets its naming diagnostic rendered with line 0. -/
theorem mixedcaps_diags_line_zero_witness :
    diagMsg "a.go" 0
      ("function name " ++ goQuote "CandidIdea" ++ " has mis-cased acronym (use ID/URL/HTTP)") ∈
      checkMixedCaps "a.go" ⟨[.funcDecl ⟨"CandidIdea", 42, false, [], none, some []⟩], []⟩ ∧
    ∃ r,
      diagMsg "a.go" 0
        ("function name " ++ goQuote "CandidIdea" ++ " has mis-cased acronym (use ID/URL/HTTP)") =
      diagMsg "a.go" 0 r :=
  ⟨by decide,
   mixedcaps_diags_line_zero "a.go" ⟨[.funcDecl ⟨"CandidIdea", 42, false, [], none, some []⟩], []⟩
     (diagMsg "a.go" 0
       ("function name " ++ goQuote "CandidIdea" ++ " has mis-cased acronym (use ID/URL/HTTP)"))
     (by decide)⟩

/-! ## Claim C6 -/

/-- Claim C6: for a top-level function, type, or variable name, the
MixedCaps check emits its mis-cased-acronym diagnostic exactly when the
name contains `Id`, `Url`, or `Http` as a case-sensitive literal substring
at any position — no word-boundary awareness, so a name such as
`CandidIdea` matches through its `Id` substring (final conjunct). -/
theorem acronym_diag_iff_substring (path : String) (fd : FuncDecl) (tname : String)
    (tpos : Nat) (v : GoIdent) :
    (diagMsg path 0
        ("function name " ++ goQuote fd.name ++ " has mis-cased acronym (use ID/URL/HTTP)") ∈
        mixedCapsFuncDiags path fd ↔
      ("Id".data <:+: fd.name.data ∨ "Url".data <:+: fd.name.data ∨
        "Http".data <:+: fd.name.data)) ∧
    (diagMsg path 0 ("type name " ++ goQuote tname ++ " has mis-cased acronym") ∈
        mixedCapsTypeDiags path tname tpos ↔
      ("Id".data <:+: tname.data ∨ "Url".data <:+: tname.data ∨ "Http".data <:+: tname.data)) ∧
    (diagMsg path 0 ("variable name " ++ goQuote v.name ++ " has mis-cased acronym") ∈
        mixedCapsVarDiags path v ↔
      ("Id".data <:+: v.name.data ∨ "Url".data <:+: v.name.data ∨ "Http".data <:+: v.name.data)) ∧
    matchBadAcronyms "CandidIdea" = true := by
  have hheadF :
      (("function name " ++ goQuote fd.name ++ " has mis-cased acronym (use ID/URL/HTTP)") :
        String).data.head? = some 'f' :=
    str_head?_append ("function name " ++ goQuote fd.name)
      " has mis-cased acronym (use ID/URL/HTTP)"
      (str_head?_append "function name " (goQuote fd.name) (by decide))
  have hheadFE :
      (("exported function name " ++ goQuote fd.name ++ " should use MixedCaps") :
        String).data.head? = some 'e' :=
    str_head?_append ("exported function name " ++ goQuote fd.name) " should use MixedCaps"
      (str_head?_append "exported function name " (goQuote fd.name) (by decide))
  have hheadFU :
      (("unexported function name " ++ goQuote fd.name ++ " should use mixedCaps") :
        String).data.head? = some 'u' :=
    str_head?_append ("unexported function name " ++ goQuote fd.name) " should use mixedCaps"
      (str_head?_append "unexported function name " (goQuote fd.name) (by decide))
  have hheadT :
      (("type name " ++ goQuote tname ++ " has mis-cased acronym") : String).data.head? =
        some 't' :=
    str_head?_append ("type name " ++ goQuote tname) " has mis-cased acronym"
      (str_head?_append "type name " (goQuote tname) (by decide))
  have hheadTE :
      (("exported type name " ++ goQuote tname ++ " should use MixedCaps") : String).data.head? =
        some 'e' :=
    str_head?_append ("exported type name " ++ goQuote tname) " should use MixedCaps"
      (str_head?_append "exported type name " (goQuote tname) (by decide))
  have hheadV :
      (("variable name " ++ goQuote v.name ++ " has mis-cased acronym") : String).data.head? =
        some 'v' :=
    str_head?_append ("variable name " ++ goQuote v.name) " has mis-cased acronym"
      (str_head?_append "variable name " (goQuote v.name) (by decide))
  have hheadVE :
      (("exported var name " ++ goQuote v.name ++ " should use MixedCaps") : String).data.head? =
        some 'e' :=
    str_head?_append ("exported var name " ++ goQuote v.name) " should use MixedCaps"
      (str_head?_append "exported var name " (goQuote v.name) (by decide))
  refine ⟨⟨?_, ?_⟩, ⟨?_, ?_⟩, ⟨?_, ?_⟩, by decide⟩
  · intro h
    unfold mixedCapsFuncDiags at h
    rcases List.mem_append.1 h with h | h
    · rcases List.mem_append.1 h with h | h
      · have heq := List.mem_singleton.1 (mem_of_ite_nil h)
        have hre := diagMsg_rest_inj heq
        exact absurd (str_append_cancel_left hre) (by decide)
      · split at h
        · have heq := List.mem_singleton.1 (mem_of_ite_nil h)
          exact absurd heq (diagMsg_ne_of_rest_head hheadF hheadFE (by decide))
        · have heq := List.mem_singleton.1 (mem_of_ite_nil h)
          exact absurd heq (diagMsg_ne_of_rest_head hheadF hheadFU (by decide))
    · have hb := mem_of_ite_nil h
      have hcond : matchBadAcronyms fd.name = true := by
        by_contra hc
        rw [if_neg hc] at h
        exact absurd h (List.not_mem_nil _)
      exact matchBadAcronyms_iff.1 hcond
  · intro hin
    have hb : matchBadAcronyms fd.name = true := matchBadAcronyms_iff.2 hin
    unfold mixedCapsFuncDiags
    apply List.mem_append_right
    rw [if_pos hb]
    exact List.mem_singleton.2 rfl
  · intro h
    unfold mixedCapsTypeDiags at h
    rcases List.mem_append.1 h with h | h
    · rcases List.mem_append.1 h with h | h
      · have heq := List.mem_singleton.1 (mem_of_ite_nil h)
        have hre := diagMsg_rest_inj heq
        exact absurd (str_append_cancel_left hre) (by decide)
      · split at h
        · have heq := List.mem_singleton.1 (mem_of_ite_nil h)
          exact absurd heq (diagMsg_ne_of_rest_head hheadT hheadTE (by decide))
        · exact absurd h (List.not_mem_nil _)
    · have hcond : matchBadAcronyms tname = true := by
        by_contra hc
        rw [if_neg hc] at h
        exact absurd h (List.not_mem_nil _)
      exact matchBadAcronyms_iff.1 hcond
  · intro hin
    have hb : matchBadAcronyms tname = true := matchBadAcronyms_iff.2 hin
    unfold mixedCapsTypeDiags
    apply List.mem_append_right
    rw [if_pos hb]
    exact List.mem_singleton.2 rfl
  · intro h
    unfold mixedCapsVarDiags at h
    rcases List.mem_append.1 h with h | h
    · rcases List.mem_append.1 h with h | h
      · have heq := List.mem_singleton.1 (mem_of_ite_nil h)
        have hre := diagMsg_rest_inj heq
        exact absurd (str_append_cancel_left hre) (by decide)
      · split at h
        · have heq := List.mem_singleton.1 (mem_of_ite_nil h)
          exact absurd heq (diagMsg_ne_of_rest_head hheadV hheadVE (by decide))
        · exact absurd h (List.not_mem_nil _)
    · have hcond : matchBadAcronyms v.name = true := by
        by_contra hc
        rw [if_neg hc] at h
        exact absurd h (List.not_mem_nil _)
      exact matchBadAcronyms_iff.1 hcond
  · intro hin
    have hb : matchBadAcronyms v.name = true := matchBadAcronyms_iff.2 hin
    unfold mixedCapsVarDiags
    apply List.mem_append_right
    rw [if_pos hb]
    exact List.mem_singleton.2 rfl

/-- Claim C6, witness: the name `CandidIdea`, which contains `Id` only as an
incidental substring, is flagged by the acronym check. -/
theorem acronym_diag_iff_substring_witness :
    ("Id".data <:+: ("CandidIdea" : String).data) ∧
    diagMsg "w6.go" 0
      ("function name " ++ goQuote "CandidIdea" ++ " has mis-cased acronym (use ID/URL/HTTP)") ∈
      mixedCapsFuncDiags "w6.go" ⟨"CandidIdea", 7, false, [], none, some []⟩ :=
  ⟨containsSubstr_iff.1 (by decide),
   (acronym_diag_iff_substring "w6.go" ⟨"CandidIdea", 7, false, [], none, some []⟩
     "T" 0 ⟨"v", 0⟩).1.2 (Or.inl (containsSubstr_iff.1 (by decide)))⟩

/-! ## Claim C2 -/

/-- Claim C2, counterexample.  The claim asserts that a test file with two
`Test`-prefixed top-level functions and no `TestMain` hook receives no
table-driven-shape diagnostic.  On the code this is false: after emitting
the "multiple top-level test functions" diagnostic the check proceeds to
examine the first collected test function, and the concrete file below
(whose `TestAlpha` has an empty body) receives the table-driven
diagnostic as well. -/
theorem multiple_tests_table_check_counterexample :
    fileDiagMsg "a_test.go"
      "test function TestAlpha does not follow table-driven test pattern. Please follow table driven approach ref: https://go.dev/wiki/TableDrivenTests" ∈
    validateTestFileStructure "a_test.go"
      ⟨[.funcDecl ⟨"TestAlpha", 10, false, [], none, some []⟩,
        .funcDecl ⟨"TestBeta", 20, false, [], none, some []⟩], []⟩ := by
  decide

/-- Claim C2 (amended): for a test file whose collection pass finds no
`TestMain` hook and two or more `Test`-prefixed top-level functions, the
engine emits one missing-TestMain diagnostic and one multiple-test-functions
diagnostic, and additionally still performs the table-driven-shape check on
the first collected test function (so that function may also receive a
table-driven diagnostic). -/
theorem multiple_tests_diags_and_first_table_check (path : String) (f : AstFile)
    (t1 t2 : FuncDecl) (ts : List FuncDecl)
    (h : collectTests f.decls = (false, t1 :: t2 :: ts)) :
    validateTestFileStructure path f =
      fileDiagMsg path "missing TestMain function" ::
      fileDiagMsg path
        "multiple top-level test functions found; please follow table-driven approach ref: https://go.dev/wiki/TableDrivenTests" ::
      tableDrivenDiags path t1 := by
  unfold validateTestFileStructure
  rw [h]
  simp

/-- Claim C2, witness: a concrete two-test file without `TestMain`
satisfies the collection hypothesis, and its diagnostics are exactly the
missing-TestMain one, the multiple-test-functions one, and the table-driven
one for the first test function. -/
theorem multiple_tests_diags_witness :
    validateTestFileStructure "b_test.go"
      ⟨[.funcDecl ⟨"TestA", 1, false, [], none, some []⟩,
        .funcDecl ⟨"TestB", 2, false, [], none, some []⟩], []⟩ =
      [fileDiagMsg "b_test.go" "missing TestMain function",
       fileDiagMsg "b_test.go"
         "multiple top-level test functions found; please follow table-driven approach ref: https://go.dev/wiki/TableDrivenTests",
       fileDiagMsg "b_test.go"
         "test function TestA does not follow table-driven test pattern. Please follow table driven approach ref: https://go.dev/wiki/TableDrivenTests"] := by
  rw [multiple_tests_diags_and_first_table_check "b_test.go"
    ⟨[.funcDecl ⟨"TestA", 1, false, [], none, some []⟩,
      .funcDecl ⟨"TestB", 2, false, [], none, some []⟩], []⟩
    ⟨"TestA", 1, false, [], none, some []⟩ ⟨"TestB", 2, false, [], none, some []⟩ [] rfl]
  rfl

/-! ## Claim C10 -/

/-- Claim C10: for a scanned line containing `t.Error(`, `t.Errorf(` or
`fmt.Errorf(` whose first quoted literal is non-empty and begins with a
character that is not a letter (a digit, for example), the capitalization
diagnostic is always emitted: the check compares the literal's first
character with its upper-cased form, and a non-letter character is its own
upper-case form. -/
theorem nonletter_first_char_flagged (path : String) (lineNo : Nat) (line : String)
    (c : Char) (cs : List Char)
    (htrig : (containsSubstr line "t.Errorf(" || containsSubstr line "t.Error(" ||
              containsSubstr line "fmt.Errorf(") = true)
    (hmsg : (extractStringLiteral line).data = c :: cs)
    (hna : isAsciiLetter c = false) :
    diagMsg path lineNo "error string should not be capitalized" ∈
      errorStringDiags path lineNo line := by
  have hlow : isAsciiLower c = false := by
    simp [isAsciiLetter] at hna
    exact hna.2
  have hne : extractStringLiteral line ≠ "" := by
    intro e
    rw [e] at hmsg
    exact List.cons_ne_nil c cs hmsg.symm
  have hpre := goStartsWith_toUpper_first hmsg (toUpper_eq_self_of_not_lower hlow)
  simp [errorStringDiags, htrig, hne, hpre]

/-- Claim C10, witness: the line `t.Errorf("1 oops")`, whose literal starts
with the digit `1`, receives the capitalization diagnostic. -/
theorem nonletter_first_char_flagged_witness :
    isAsciiLetter '1' = false ∧
    diagMsg "w10.go" 9 "error string should not be capitalized" ∈
      errorStringDiags "w10.go" 9 "t.Errorf(\"1 oops\")" :=
  ⟨by decide,
   nonletter_first_char_flagged "w10.go" 9 "t.Errorf(\"1 oops\")" '1' " oops".data
     (by decide) (by decide) (by decide)⟩

/-! ## Claim C4 witness -/

/-- Claim C4, witness: a concrete exported, undocumented, non-test function
receives the must-have-doc diagnostic and not the should-end-with-period
one. -/
theorem exported_doc_rule_witness :
    goIsExported "Foo" = true ∧
    goStartsWith "Foo" "Test" = false ∧
    diagMsg "w4.go" 5 ("exported function " ++ "Foo" ++ " must have doc comment") ∈
      funcDeclDiags "w4.go" (fun _ => 5) ⟨"Foo", 1, false, [], none, some []⟩ ∧
    diagMsg "w4.go" 5 "function comment should end with '.'" ∉
      funcDeclDiags "w4.go" (fun _ => 5) ⟨"Foo", 1, false, [], none, some []⟩ :=
  ⟨by decide, by decide,
   ((exported_doc_rule_correct "w4.go" (fun _ => 5) ⟨"Foo", 1, false, [], none, some []⟩
     (by decide) (by decide)).1 rfl).1,
   ((exported_doc_rule_correct "w4.go" (fun _ => 5) ⟨"Foo", 1, false, [], none, some []⟩
     (by decide) (by decide)).1 rfl).2⟩

end FPValidator
